import Mathlib

/-!
Shallow embedding of the face-recognition experiment repository:
`dataset_creation.py` (filename classifier), `result_database_creation.py`
(results aggregator) and `psychopy_exp.py` (session runner response logic),
together with theorems settling the specification claims.

Numeric cell values are modelled as rationals (`ℚ`): every statistic the
scripts compute (quantiles via linear interpolation, means) is exact
rational arithmetic over the input values. A pandas `NaN` cell is the
explicit constructor `Cell.na`.
-/

namespace FaceRec

/-- A single table cell, as pandas materialises a CSV value: a boolean, a
numeric value, a string, or a missing value (`NaN`). -/
inductive Cell where
  | b (v : Bool)
  | num (v : ℚ)
  | str (s : String)
  | na
deriving DecidableEq

/-- Helper: `needle` is an initial segment of `hay`. -/
def seqStarts : List Char → List Char → Bool
  | [], _ => true
  | _ :: _, [] => false
  | a :: as, b :: bs => a == b && seqStarts as bs

/-- Helper: `needle` occurs contiguously inside `hay`
(Python's `needle in hay` on strings). -/
def seqOccurs (needle : List Char) : List Char → Bool
  | [] => needle.isEmpty
  | c :: rest => seqStarts needle (c :: rest) || seqOccurs needle rest

/-- Python substring test `needle in hay`. -/
def strContains (hay needle : String) : Bool := seqOccurs needle.data hay.data

/-- Python `s.startswith(pre)`. -/
def pyStartsWith (s pre : String) : Bool := seqStarts pre.data s.data

/-- Python `s.endswith(suf)`. -/
def pyEndsWith (s suf : String) : Bool :=
  seqStarts suf.data.reverse s.data.reverse

/-- Lower-case one character (the repository's data is ASCII, where Python
`str.lower` is exactly the A-Z shift). -/
def charLower (c : Char) : Char :=
  if decide (65 ≤ c.toNat ∧ c.toNat ≤ 90) then Char.ofNat (c.toNat + 32)
  else c

/-- Python `s.lower()`. -/
def strLower (s : String) : String := String.mk (s.data.map charLower)

/-- A whitespace character, as stripped by Python `str.strip()`. -/
def isSpaceCh (c : Char) : Bool :=
  c == ' ' || c == '\t' || c == '\n' || c == '\r' || c == '\x0B' || c == '\x0C'

/-- Python `s.strip()`. -/
def strTrim (s : String) : String :=
  String.mk (((s.data.dropWhile isSpaceCh).reverse.dropWhile isSpaceCh).reverse)

/-- Python `str(s).strip().lower()` (`_lower` in `result_database_creation.py`,
applied to values that are already strings). -/
def pyLower (s : String) : String := strLower (strTrim s)

/-- Code-point lexicographic order on character lists (Python string `<=`). -/
def charListLe : List Char → List Char → Bool
  | [], _ => true
  | _ :: _, [] => false
  | a :: as, b :: bs =>
    if a.toNat < b.toNat then true
    else if b.toNat < a.toNat then false
    else charListLe as bs

/-- Python string comparison `a <= b` (code-point lexicographic; equal to
byte order because UTF-8 preserves code-point order). -/
def strLe (a b : String) : Bool := charListLe a.data b.data

/-- Stem part of `os.path.splitext`: returns the characters before the last
dot when the list contains one, `none` otherwise. -/
def stemSplit : List Char → Option (List Char)
  | [] => none
  | c :: rest =>
    match stemSplit rest with
    | some s => some (c :: s)
    | none => if c == '.' then some [] else none

/-- `os.path.splitext(f)[0]`: split at the last dot that is not part of the
leading run of dots (so `".hidden"` has no extension). -/
def splitextStem (f : String) : String :=
  let cs := f.data
  let k := (cs.takeWhile (fun c => c == '.')).length
  match stemSplit (cs.drop k) with
  | some s => String.mk (cs.take k ++ s)
  | none => f

/-- A character matched by the token class of the regex `[^a-z0-9]+` split,
i.e. a lower-case letter or digit. -/
def isTokChar (c : Char) : Bool :=
  decide ((97 ≤ c.toNat ∧ c.toNat ≤ 122) ∨ (48 ≤ c.toNat ∧ c.toNat ≤ 57))

/-- Maximal runs of `[a-z0-9]` characters (the regex split on `[^a-z0-9]+`,
with empty tokens dropped); `acc` is the current run, reversed. -/
def tokenRuns (acc : List Char) : List Char → List String
  | [] => if acc.isEmpty then [] else [String.mk acc.reverse]
  | c :: rest =>
    if isTokChar c then tokenRuns (c :: acc) rest
    else if acc.isEmpty then tokenRuns [] rest
    else String.mk acc.reverse :: tokenRuns [] rest

/-- `tokens_from_filename` from `dataset_creation.py`: lower-cased stem split
into alphanumeric tokens. Python builds a `set`; the classifiers below only
test membership and existentials, for which a list is an equivalent model. -/
def tokens_from_filename (filename : String) : List String :=
  tokenRuns [] (strLower (splitextStem filename)).data

/-- `classify_source` from `dataset_creation.py` (lines 21-23). -/
def classify_source (toks : List String) : String :=
  if "ai" ∈ toks then "ai" else "non-ai"

/-- `classify_gender` from `dataset_creation.py` (lines 26-40). -/
def classify_gender (toks : List String) : String :=
  if "man" ∈ toks then "male"
  else if "woman" ∈ toks then "female"
  else if toks.any (fun t => pyStartsWith t "man") then "male"
  else if toks.any (fun t => pyStartsWith t "woman") then "female"
  else "unknown"

/-- `classify_emotion` from `dataset_creation.py` (lines 43-50). -/
def classify_emotion (toks : List String) : String :=
  if "happy" ∈ toks ∨ "smiling" ∈ toks then "happy"
  else if "sad" ∈ toks then "sad"
  else "unknown"

/-- Fixed manifest header of `dataset_creation.py`. -/
def HEADERS : List String := ["filename", "source", "gender", "emotion"]

/-- `filename.lower().endswith((".jpg", ".jpeg", ".png"))`. -/
def matchesExt (f : String) : Bool :=
  pyEndsWith (strLower f) ".jpg" || pyEndsWith (strLower f) ".jpeg" ||
    pyEndsWith (strLower f) ".png"

/-- One manifest row: `[filename, source, gender, emotion]`. -/
def manifestRow (f : String) : List String :=
  [f, classify_source (tokens_from_filename f),
   classify_gender (tokens_from_filename f),
   classify_emotion (tokens_from_filename f)]

/-- Rows of the manifest written by `main` of `dataset_creation.py`: the
directory listing sorted (Python `sorted`, code-point lexicographic),
filtered to the image extensions, one row per file. -/
def manifestRows (listing : List String) : List (List String) :=
  ((List.insertionSort (fun a b => strLe a b = true) listing).filter
    matchesExt).map manifestRow

/-- The full manifest table (header row followed by data rows). -/
def manifest (listing : List String) : List (List String) :=
  HEADERS :: manifestRows listing

/-! ### Results aggregator (`result_database_creation.py`) -/

/-- Parse a run of decimal digits; `none` if empty or any non-digit. -/
def parseDigits (cs : List Char) : Option ℕ :=
  if cs.isEmpty then none
  else if cs.all (fun c => decide ('0' ≤ c ∧ c ≤ '9')) then
    some (cs.foldl (fun n c => 10 * n + (c.toNat - 48)) 0)
  else none

/-- Parse an unsigned decimal number `digits[.digits]` as a rational. -/
def parseDecimal (cs : List Char) : Option ℚ :=
  let ip := cs.takeWhile (fun c => c != '.')
  let rest := cs.dropWhile (fun c => c != '.')
  match rest with
  | [] => (parseDigits ip).map (fun n => (n : ℚ))
  | _ :: frac =>
    if frac.any (fun c => c == '.') then none
    else if ip.isEmpty && frac.isEmpty then none
    else
      match (if ip.isEmpty then some 0 else parseDigits ip),
            (if frac.isEmpty then some 0 else parseDigits frac) with
      | some a, some f => some ((a : ℚ) + (f : ℚ) / ((10 : ℚ) ^ frac.length))
      | _, _ => none

/-- Numeric parse of a string as `pd.to_numeric(·, errors="coerce")` performs
it (decimal forms; exponent and infinity spellings are not exercised by this
repository's data and are omitted). -/
def parseRat (s : String) : Option ℚ :=
  match (strTrim s).data with
  | '-' :: rest => (parseDecimal rest).map (fun q => -q)
  | '+' :: rest => parseDecimal rest
  | cs => parseDecimal cs

/-- `pd.to_numeric(·, errors="coerce")` on one cell: booleans become 0/1,
numbers stay, parseable strings parse, everything else becomes missing. -/
def cellToNum : Cell → Option ℚ
  | .b true => some 1
  | .b false => some 0
  | .num v => some v
  | .str s => parseRat s
  | .na => none

/-- Python `str(...)` of a cell as pandas `astype(str)` produces it. A
numeric value stringifies to a decimal form; the embedding renders it from
the rational representation — the only property the scripts rely on is that
it consists of digits, `-`, `/` and never matches an alphabetic keyword. -/
def cellStr : Cell → String
  | .b true => "True"
  | .b false => "False"
  | .num q => toString q.num ++ (if q.den = 1 then "" else "/" ++ toString q.den)
  | .str s => s
  | .na => "nan"

def isStrCell : Cell → Bool
  | .str _ => true
  | _ => false

def isBoolCell : Cell → Bool
  | .b _ => true
  | _ => false

def isNaCell : Cell → Bool
  | .na => true
  | _ => false

/-- A session table: named columns of cells (a pandas `DataFrame`; all
columns of a well-formed frame have the same length). -/
structure Table where
  cols : List (String × List Cell)
deriving DecidableEq

/-- The fixed bookkeeping columns dropped by the aggregator (lines 8-15). -/
def cols_to_remove : List String :=
  ["thisRow.t", "notes", "resp_key", "missing_file", "participant", "session"]

/-- `df.drop(columns=[c for c in cols_to_remove if c in df.columns])`. -/
def dropRemoved (t : Table) : Table :=
  ⟨t.cols.filter (fun c => !(cols_to_remove.contains c.1))⟩

/-- `df.loc[:, ~df.columns.str.startswith("Unnamed")]`. -/
def dropUnnamed (t : Table) : Table :=
  ⟨t.cols.filter (fun c => !(pyStartsWith c.1 "Unnamed"))⟩

/-- The column-pruning prefix of the per-file pipeline (lines 72-75). -/
def cleanCols (t : Table) : Table := dropUnnamed (dropRemoved t)

/-- `name in df.columns` (exact, case-sensitive — as in `"rt" in df.columns`). -/
def hasCol (t : Table) (name : String) : Bool :=
  t.cols.any (fun c => c.1 == name)

/-- `df[name]`: the cells of the (first) column with that exact name. -/
def getColCells (t : Table) (name : String) : List Cell :=
  ((t.cols.find? (fun c => c.1 == name)).map (fun c => c.2)).getD []

/-- Replace the cells of the named column. -/
def mapCol (t : Table) (name : String) (f : List Cell → List Cell) : Table :=
  ⟨t.cols.map (fun c => if c.1 == name then (c.1, f c.2) else c)⟩

/-- Keep the entries of `xs` whose positional mask entry is `true`
(boolean row indexing on an aligned pandas index). -/
def applyMask {α : Type} (keep : List Bool) (xs : List α) : List α :=
  (xs.zip keep).filterMap (fun p => if p.2 then some p.1 else none)

/-- Row filtering `df[mask]` applied to every column. -/
def filterRows (t : Table) (keep : List Bool) : Table :=
  ⟨t.cols.map (fun c => (c.1, applyMask keep c.2))⟩

/-- `df["rt"] = pd.to_numeric(df["rt"], errors="coerce")` (line 80). -/
def numericizeRt (t : Table) : Table :=
  mapCol t "rt" (List.map (fun c =>
    match cellToNum c with
    | some q => Cell.num q
    | none => Cell.na))

/-- The reaction-time series of a table whose `rt` column has been coerced
numeric: one `Option ℚ` per row (`none` = `NaN`). -/
def rtSeries (t : Table) : List (Option ℚ) :=
  (getColCells t "rt").map cellToNum

/-- `Series.quantile(q)` with the default linear interpolation: on the
sorted valid values `x₀ ≤ … ≤ xₙ₋₁`, position `q·(n-1) = i + frac` gives
`xᵢ + frac·(xᵢ₊₁ - xᵢ)`. -/
def quantile (q : ℚ) (xs : List ℚ) : ℚ :=
  let s := List.insertionSort (fun a b => a ≤ b) xs
  let n := s.length
  if n = 0 then 0
  else
    let pos : ℚ := q * ((n : ℚ) - 1)
    let i : ℕ := (Rat.floor pos).toNat
    let frac : ℚ := pos - (i : ℚ)
    s.getD i 0 + frac * (s.getD (i + 1) 0 - s.getD i 0)

/-- `Q1 - 1.5*IQR` over the valid reaction times (lines 92-96). -/
def lowerFenceOf (valid : List ℚ) : ℚ :=
  quantile (1/4) valid - (3/2) * (quantile (3/4) valid - quantile (1/4) valid)

/-- `Q3 + 1.5*IQR` over the valid reaction times (lines 92-97). -/
def upperFenceOf (valid : List ℚ) : ℚ :=
  quantile (3/4) valid + (3/2) * (quantile (3/4) valid - quantile (1/4) valid)

/-- Per-row IQR flag combined with the missing flag (`missing_rt |
iqr_outliers`): a missing value is flagged; a valid value is flagged when it
falls outside the fences. (`NaN < lb` and `NaN > ub` are `False` in pandas,
so a missing row's IQR part is `false`.) -/
def rtFlagIQR (lb ub : ℚ) (o : Option ℚ) : Bool :=
  o.isNone ||
    (match o with
     | none => false
     | some v => decide (v < lb) || decide (ub < v))

/-- `df["rt_outlier"]` (lines 83-104): IQR fences are computed only when at
least 4 valid reaction times exist, else only missing values are flagged. -/
def rtOutlierFlags (rts : List (Option ℚ)) : List Bool :=
  if 4 ≤ (rts.filterMap id).length then
    rts.map (rtFlagIQR (lowerFenceOf (rts.filterMap id))
                       (upperFenceOf (rts.filterMap id)))
  else
    rts.map Option.isNone

/-- `100 * df["rt_outlier"].mean()` (line 107). On an empty frame pandas
yields `NaN` and `NaN > 10` is `False`; the model yields `0`, which takes
the same branch of the threshold comparison. -/
def outlierPct (flags : List Bool) : ℚ :=
  100 * ((flags.count true : ℚ) / (flags.length : ℚ))

/-- Flags the aggregator computes for a file (after column pruning and
numeric coercion of `rt`). -/
def fileFlags (t : Table) : List Bool :=
  rtOutlierFlags (rtSeries (numericizeRt (cleanCols t)))

/-- The table that survives cleaning and reaches the summary step, or `none`
when the file is skipped at the >10% outlier threshold (lines 78-118). The
helper `rt_outlier` column is added and dropped again in the source; its net
effect is exactly the row filter. -/
def cleanedTable (t : Table) : Option Table :=
  if hasCol (cleanCols t) "rt" then
    if outlierPct (fileFlags t) > 10 then none
    else some (filterRows (numericizeRt (cleanCols t))
                ((fileFlags t).map (fun b => !b)))
  else some (cleanCols t)

/-- `dtype == bool`: a pandas column is boolean dtype when it is non-empty
and every value is a boolean (a `NaN` forces object dtype). -/
def dtypeBool (cells : List Cell) : Bool :=
  !cells.isEmpty && cells.all isBoolCell

/-- `coerce_correct_series` (lines 49-63). The numeric branch mirrors
`s_num.astype(int).astype(bool)`, which raises in pandas when the series
still contains `NaN`; the raise is the `Except.error` case. -/
def coerce_correct_series (cells : List Cell) :
    Except Unit (Option (List Bool)) :=
  if dtypeBool cells then
    Except.ok (some (cells.map (fun c =>
      match c with
      | .b v => v
      | _ => false)))
  else
    let nums := cells.map cellToNum
    if nums.any Option.isSome &&
        (nums.filterMap id).all (fun q => q == 0 || q == 1) then
      if nums.all Option.isSome then
        Except.ok (some (nums.map (fun o => o == some 1)))
      else Except.error ()
    else
      let strs := cells.map (fun c => pyLower (cellStr c))
      if strs.all (fun s => s == "true" || s == "false") then
        Except.ok (some (strs.map (fun s => s == "true")))
      else Except.ok none

def db_candidates : List String :=
  ["database", "db", "source", "stim_database", "face_database", "set",
   "dataset"]

def emo_candidates : List String :=
  ["emotion", "expression", "valence", "mood", "affect"]

def corr_candidates : List String :=
  ["correct", "corr", "accuracy", "resp_corr", "response_corr",
   "key_resp.corr", "resp.corr", "trial_corr"]

/-- `pick_column` (lines 23-29): first candidate (in candidate order) whose
lower-cased name matches a column; the dict comprehension keeps the last
column for a duplicated lower-cased name. -/
def pick_column (t : Table) (cands : List String) : Option String :=
  cands.findSome? (fun cand =>
    ((t.cols.map (fun c => c.1)).filter
      (fun c => strLower c == strLower cand)).getLast?)

/-- Object-dtype test used by `infer_condition_columns`: a CSV-read pandas
column is object/category when it holds strings, or booleans mixed with
missing values. -/
def isObjCol (cells : List Cell) : Bool :=
  cells.any isStrCell || (cells.any isBoolCell && cells.any isNaCell)

/-- `df[c].dropna().astype(str).map(_lower)` (`unique()` is irrelevant to the
purely existential checks below). -/
def colVals (cells : List Cell) : List String :=
  (cells.filter (fun c => !isNaCell c)).map (fun c => pyLower (cellStr c))

/-- `infer_condition_columns` (lines 31-47): scan object columns in order;
the first column with a value containing `"ai"` and a value containing
`"non-ai"`/`"nonai"` is the database column, the first with values
containing `"happy"` and `"sad"` is the emotion column. -/
def infer_condition_columns (t : Table) : Option String × Option String :=
  let obj := t.cols.filter (fun c => isObjCol c.2)
  ((obj.find? (fun c =>
      (colVals c.2).any (fun v => strContains v "ai") &&
      (colVals c.2).any (fun v =>
        strContains v "non-ai" || strContains v "nonai"))).map (fun c => c.1),
   (obj.find? (fun c =>
      (colVals c.2).any (fun v => strContains v "happy") &&
      (colVals c.2).any (fun v => strContains v "sad"))).map (fun c => c.1))

/-- Condition columns after name matching with inference fallback
(lines 138-146). -/
def condCols (t : Table) : Option String × Option String :=
  let d0 := pick_column t db_candidates
  let e0 := pick_column t emo_candidates
  let i := infer_condition_columns t
  (d0 <|> i.1, e0 <|> i.2)

/-- `normalize_database` (lines 163-169). -/
def normalize_database (x : String) : Option String :=
  if strContains x "non-ai" || strContains x "nonai" ||
      strContains x "real" || strContains x "human" then some "non-ai"
  else if strContains x "ai" then some "ai"
  else none

/-- `normalize_emotion` (lines 171-176). -/
def normalize_emotion (x : String) : Option String :=
  if strContains x "sad" then some "sad"
  else if strContains x "happy" then some "happy"
  else none

/-- Mean of a list of rationals; `none` on the empty list (pandas `mean()`
of an empty/all-NaN selection is `NaN`). -/
def qmeanOpt (xs : List ℚ) : Option ℚ :=
  if xs.isEmpty then none else some (xs.sum / (xs.length : ℚ))

/-- `compute_metrics` (lines 181-188): mean reaction time (skipping missing
values) and accuracy percentage over the rows whose normalized categories
match the given labels. -/
def compute_metrics (t : Table) (dbCat emoCat : List (Option String))
    (cb : Option (List Bool)) (dbL emoL : String) : Option ℚ × Option ℚ :=
  let mask := List.zipWith
    (fun a b => a == some dbL && b == some emoL) dbCat emoCat
  let avg := if hasCol t "rt" then
      qmeanOpt ((applyMask mask (rtSeries t)).filterMap id)
    else none
  let acc := cb.bind (fun bs =>
    (qmeanOpt ((applyMask mask bs).map
      (fun b => if b then (1 : ℚ) else 0))).map (fun m => 100 * m))
  (avg, acc)

/-- One summary row (lines 121-131); `database_name` plus the eight
per-condition metrics; `none` is pandas `NaN`. -/
structure SummaryRow where
  database_name : String
  ai_sad_avg_rt : Option ℚ
  ai_sad_accuracy_pct : Option ℚ
  ai_happy_avg_rt : Option ℚ
  ai_happy_accuracy_pct : Option ℚ
  nonai_sad_avg_rt : Option ℚ
  nonai_sad_accuracy_pct : Option ℚ
  nonai_happy_avg_rt : Option ℚ
  nonai_happy_accuracy_pct : Option ℚ
deriving DecidableEq

/-- The all-NaN summary row initialised at lines 121-131. -/
def nanRow (filename : String) : SummaryRow :=
  ⟨splitextStem filename, none, none, none, none, none, none, none, none⟩

/-- Lines 152-155: locate the correctness column and coerce it; the raise of
the coercion surfaces as `Except.error`. -/
def correctSeries (t : Table) : Except Unit (Option (List Bool)) :=
  match pick_column t corr_candidates with
  | none => Except.ok none
  | some c => coerce_correct_series (getColCells t c)

/-- `df[database_col].astype(str).map(_lower)` then `normalize_database`
(lines 160-178). -/
def dbCatSeries (t : Table) (c : String) : List (Option String) :=
  (getColCells t c).map (fun cell => normalize_database (pyLower (cellStr cell)))

/-- `df[emotion_col].astype(str).map(_lower)` then `normalize_emotion`
(lines 161-179). -/
def emoCatSeries (t : Table) (c : String) : List (Option String) :=
  (getColCells t c).map (fun cell => normalize_emotion (pyLower (cellStr cell)))

/-- Lines 120-195: build the summary row for a cleaned table. The
correctness coercion runs before the condition-column branch, so its raise
aborts even files whose metrics would have been left NaN. The second
`pd.to_numeric` on `rt` (lines 149-150) is a no-op here because the `rt`
column is already numeric whenever it exists. -/
def buildSummary (filename : String) (t : Table) : Except Unit SummaryRow :=
  match correctSeries t with
  | Except.error e => Except.error e
  | Except.ok cb =>
    match condCols t with
    | (some dc, some ec) =>
      Except.ok ⟨splitextStem filename,
        (compute_metrics t (dbCatSeries t dc) (emoCatSeries t ec) cb
          "ai" "sad").1,
        (compute_metrics t (dbCatSeries t dc) (emoCatSeries t ec) cb
          "ai" "sad").2,
        (compute_metrics t (dbCatSeries t dc) (emoCatSeries t ec) cb
          "ai" "happy").1,
        (compute_metrics t (dbCatSeries t dc) (emoCatSeries t ec) cb
          "ai" "happy").2,
        (compute_metrics t (dbCatSeries t dc) (emoCatSeries t ec) cb
          "non-ai" "sad").1,
        (compute_metrics t (dbCatSeries t dc) (emoCatSeries t ec) cb
          "non-ai" "sad").2,
        (compute_metrics t (dbCatSeries t dc) (emoCatSeries t ec) cb
          "non-ai" "happy").1,
        (compute_metrics t (dbCatSeries t dc) (emoCatSeries t ec) cb
          "non-ai" "happy").2⟩
    | _ => Except.ok (nanRow filename)

/-- Per-file processing (the body of the loop at lines 65-200):
`Except.ok none` = skipped at the outlier threshold (nothing written, no
summary row); `Except.ok (some (df, row))` = cleaned table written back and
summary row appended; `Except.error` = an uncaught pandas exception. -/
def processFile (filename : String) (t : Table) :
    Except Unit (Option (Table × SummaryRow)) :=
  match cleanedTable t with
  | none => Except.ok none
  | some df => (buildSummary filename df).map (fun row => some (df, row))

/-- The whole batch over a directory listing of named tables: the files
written back (in order) and the summary rows collected (in order). A raised
exception aborts the remainder of the batch. -/
def processBatch :
    List (String × Table) → Except Unit (List (String × Table) × List SummaryRow)
  | [] => Except.ok ([], [])
  | p :: rest =>
    if pyEndsWith p.1 ".csv" then
      match processFile p.1 p.2 with
      | Except.error e => Except.error e
      | Except.ok none => processBatch rest
      | Except.ok (some (df, row)) =>
        match processBatch rest with
        | Except.error e => Except.error e
        | Except.ok (ws, rows) => Except.ok ((p.1, df) :: ws, row :: rows)
    else processBatch rest

/-- The summary row a directory entry contributes, if any. -/
def summaryOf (p : String × Table) : Option SummaryRow :=
  if pyEndsWith p.1 ".csv" then
    match processFile p.1 p.2 with
    | Except.ok (some (_, r)) => some r
    | _ => none
  else none

/-! ### Session runner response logic (`psychopy_exp.py`) -/

def KEY_HAPPY : String := "right"
def KEY_SAD : String := "left"
def QUIT_KEYS : List String := ["escape"]

/-- One logged trial: response key (`""` when absent), reaction time
(`none` = logged blank), correctness (`none` = logged blank). -/
structure TrialLog where
  resp_key : String
  rt : Option ℚ
  correct : Option Bool
deriving DecidableEq

/-- Lines 263-304 of `psychopy_exp.py`: the response handling of one trial.
`keys` is the first entry of `event.waitKeys` (`none` on timeout). The
result is `none` when a quit key breaks the loop, otherwise the record
logged for the trial. -/
def trialOutcome (keys : Option (String × ℚ)) (correct_emotion : String) :
    Option TrialLog :=
  match keys with
  | none => some ⟨"", none, some false⟩
  | some (k, t) =>
    if k ∈ QUIT_KEYS then none
    else some ⟨k, some t,
      if correct_emotion == "happy" then some (k == KEY_HAPPY)
      else if correct_emotion == "sad" then some (k == KEY_SAD)
      else none⟩

/-! ### Helper lemmas -/

lemma charToNat_inj {a b : Char} (h : a.toNat = b.toNat) : a = b :=
  Char.ext (UInt32.ext h)

lemma charListLe_total : ∀ as bs : List Char,
    charListLe as bs = true ∨ charListLe bs as = true := by
  intro as
  induction as with
  | nil => intro bs; left; rfl
  | cons a as ih =>
    intro bs
    cases bs with
    | nil => right; rfl
    | cons b bs =>
      by_cases h1 : a.toNat < b.toNat
      · left; simp [charListLe, h1]
      · by_cases h2 : b.toNat < a.toNat
        · right; simp [charListLe, h2]
        · rcases ih bs with h | h
          · left; simp [charListLe, h1, h2, h]
          · right; simp [charListLe, h1, h2, h]

lemma charListLe_trans : ∀ as bs cs : List Char,
    charListLe as bs = true → charListLe bs cs = true →
    charListLe as cs = true := by
  intro as
  induction as with
  | nil => intro bs cs _ _; rfl
  | cons a as ih =>
    intro bs cs h1 h2
    cases bs with
    | nil => simp [charListLe] at h1
    | cons b bs =>
      cases cs with
      | nil => simp [charListLe] at h2
      | cons c cs =>
        simp only [charListLe] at h1 h2 ⊢
        split_ifs at h1 h2 ⊢ <;> first
          | rfl
          | omega
          | exact h1
          | exact h2
          | exact ih bs cs h1 h2

lemma charListLe_antisymm : ∀ as bs : List Char,
    charListLe as bs = true → charListLe bs as = true → as = bs := by
  intro as
  induction as with
  | nil =>
    intro bs h1 h2
    cases bs with
    | nil => rfl
    | cons b bs => simp [charListLe] at h2
  | cons a as ih =>
    intro bs h1 h2
    cases bs with
    | nil => simp [charListLe] at h1
    | cons b bs =>
      simp only [charListLe] at h1 h2
      have hab : a.toNat = b.toNat := by
        by_cases hx : a.toNat < b.toNat
        · simp [hx, Nat.lt_asymm hx] at h2
        · by_cases hy : b.toNat < a.toNat
          · simp [hx, hy] at h1
          · omega
      have hcc : a = b := charToNat_inj hab
      subst hcc
      simp only [Nat.lt_irrefl, if_false] at h1 h2
      exact congrArg (a :: ·) (ih bs h1 h2)

instance : IsTotal String (fun a b => strLe a b = true) :=
  ⟨fun a b => charListLe_total a.data b.data⟩

instance : IsTrans String (fun a b => strLe a b = true) :=
  ⟨fun a b c => charListLe_trans a.data b.data c.data⟩

instance : IsAntisymm String (fun a b => strLe a b = true) :=
  ⟨fun a b h1 h2 => by
    cases a; cases b
    exact congrArg String.mk (charListLe_antisymm _ _ h1 h2)⟩

lemma eq_map_of_mem_zip {α β : Type} (f : α → β) :
    ∀ (l : List α) (a : α) (b : β), (a, b) ∈ l.zip (l.map f) → b = f a := by
  intro l
  induction l with
  | nil => intro a b h; simp at h
  | cons x xs ih =>
    intro a b h
    simp only [List.map_cons, List.zip_cons_cons, List.mem_cons,
      Prod.mk.injEq] at h
    rcases h with ⟨h1, h2⟩ | hm
    · subst h1; subst h2; rfl
    · exact ih a b hm

/-! ### Claim theorems -/

/-- Spec wording of the gender rule (claim C4): exact-token checks for both
genders first, then the prefix checks, then unknown. -/
def gender_rule_spec (toks : List String) : String :=
  if "man" ∈ toks then "male"
  else if "woman" ∈ toks then "female"
  else if toks.any (fun t => pyStartsWith t "man") then "male"
  else if toks.any (fun t => pyStartsWith t "woman") then "female"
  else "unknown"

/-- Claim C4: for every token set, `classify_gender` returns "male" on exact
token `man`, else "female" on exact token `woman`, else "male" on a `man`
prefix, else "female" on a `woman` prefix, else "unknown"; both exact checks
precede either prefix check (witnessed by `{"manly", "woman"}`, where the
exact `woman` match beats the `man`-prefix match). -/
theorem classify_gender_follows_spec_order :
    (∀ toks, classify_gender toks = gender_rule_spec toks) ∧
    classify_gender ["manly", "woman"] = "female" :=
  ⟨fun _ => rfl, rfl⟩

/-- Spec wording of the source rule (claim C7). -/
def source_rule_spec (toks : List String) : String :=
  if "ai" ∈ toks then "ai" else "non-ai"

/-- Spec wording of the emotion rule (claim C7). -/
def emotion_rule_spec (toks : List String) : String :=
  if "happy" ∈ toks ∨ "smiling" ∈ toks then "happy"
  else if "sad" ∈ toks then "sad"
  else "unknown"

/-- Claim C7: `classify_source` returns "ai" iff the token set contains the
exact token `ai` and "non-ai" otherwise (a token merely containing "ai" as a
substring, such as "hair" or "airplane", does not count); `classify_emotion`
returns "happy" on `happy` or `smiling`, else "sad" on `sad`, else
"unknown". -/
theorem classify_source_emotion_follow_spec :
    (∀ toks, (classify_source toks = "ai" ↔ "ai" ∈ toks) ∧
      ("ai" ∉ toks → classify_source toks = "non-ai") ∧
      classify_source toks = source_rule_spec toks ∧
      classify_emotion toks = emotion_rule_spec toks) ∧
    classify_source ["hair", "airplane"] = "non-ai" := by
  refine ⟨fun toks => ⟨?_, ?_, rfl, rfl⟩, by decide⟩
  · by_cases h : "ai" ∈ toks <;> simp [classify_source, h]
  · intro h; simp [classify_source, h]

/-- Witness for C7: a token merely containing "ai" as a substring yields
"non-ai". -/
theorem classify_source_emotion_follow_spec_witness :
    classify_source ["hair"] = "non-ai" :=
  (classify_source_emotion_follow_spec.1 ["hair"]).2.1 (by decide)

/-- Spec wording of the source-value normalization rule (claim C5). -/
def database_rule_spec (x : String) : Option String :=
  if strContains x "non-ai" || strContains x "nonai" ||
      strContains x "real" || strContains x "human" then some "non-ai"
  else if strContains x "ai" then some "ai"
  else none

/-- Claim C5: `normalize_database` yields "non-ai" when the lower-cased value
contains "non-ai", "nonai", "real" or "human", else "ai" when it contains
"ai", else no label; in particular the raw value "Non-AI-Dataset" normalizes
to "non-ai" because the non-ai checks run first. -/
theorem normalize_database_follows_spec :
    (∀ x, normalize_database x = database_rule_spec x) ∧
    normalize_database (pyLower "Non-AI-Dataset") = some "non-ai" ∧
    strContains (pyLower "Non-AI-Dataset") "ai" = true :=
  ⟨fun _ => rfl, rfl, rfl⟩

/-- Claim C6 (code bug): the correctness coercion keeps boolean columns,
maps numeric {0,1} columns and `true`/`false` string columns (any case) to
boolean, and returns no series for anything else — but it does raise
(`Except.error`, pandas `ValueError` from `astype(int)`) on a numeric {0,1}
column that also contains a missing value, contradicting the "never raises"
part of the claim. -/
theorem coerce_correct_series_cascade_and_raise :
    coerce_correct_series [Cell.b true, Cell.b false] =
      Except.ok (some [true, false]) ∧
    coerce_correct_series [Cell.num 1, Cell.num 0] =
      Except.ok (some [true, false]) ∧
    coerce_correct_series [Cell.str "True", Cell.str "FALSE"] =
      Except.ok (some [true, false]) ∧
    coerce_correct_series [Cell.str "maybe"] = Except.ok none ∧
    coerce_correct_series [Cell.num 1, Cell.num 0, Cell.na] =
      Except.error () :=
  ⟨rfl, rfl, rfl, rfl, rfl⟩

/-- Claim C3: a missing reaction time is always flagged; with at least 4
valid reaction times a row is flagged iff it is missing or falls outside
the IQR fences computed over the valid values only; with fewer than 4 valid
values exactly the missing rows are flagged. (`rts.zip (rtOutlierFlags rts)`
pairs each row's reaction time with its flag.) -/
theorem rt_outlier_flags_follow_iqr_rule (rts : List (Option ℚ))
    (o : Option ℚ) (b : Bool) (hmem : (o, b) ∈ rts.zip (rtOutlierFlags rts)) :
    (o = none → b = true) ∧
    (4 ≤ (rts.filterMap id).length → ∀ v, o = some v →
      (b = true ↔ (v < lowerFenceOf (rts.filterMap id) ∨
                   upperFenceOf (rts.filterMap id) < v))) ∧
    ((rts.filterMap id).length < 4 → b = o.isNone) := by
  by_cases h4 : 4 ≤ (rts.filterMap id).length
  · rw [rtOutlierFlags, if_pos h4] at hmem
    have hb := eq_map_of_mem_zip _ rts o b hmem
    refine ⟨?_, ?_, ?_⟩
    · intro ho; subst ho; subst hb; rfl
    · intro _ v hv; subst hv; subst hb
      simp [rtFlagIQR]
    · intro hlt; exact absurd h4 (by omega)
  · rw [rtOutlierFlags, if_neg h4] at hmem
    have hb := eq_map_of_mem_zip _ rts o b hmem
    refine ⟨?_, ?_, ?_⟩
    · intro ho; subst ho; subst hb; rfl
    · intro h; exact absurd h h4
    · intro _; exact hb

/-- Witness for C3 on the concrete file `[1, 2, 3, 100, missing]`: the four
valid values give Q1 = 7/4, Q3 = 109/4, fences −73/2 and 131/2, and the
valid value 100 is flagged because it exceeds the upper fence. -/
theorem rt_outlier_flags_follow_iqr_rule_witness :
    (100 : ℚ) < lowerFenceOf [1, 2, 3, 100] ∨
    upperFenceOf [1, 2, 3, 100] < 100 := by
  have hs : List.insertionSort (fun a b => a ≤ b) ([1, 2, 3, 100] : List ℚ) =
      [1, 2, 3, 100] := by
    norm_num [List.insertionSort, List.orderedInsert]
  have h1 : quantile (1/4) [1, 2, 3, 100] = 7/4 := by
    rw [quantile, hs]; norm_num [Rat.floor]
  have h3 : quantile (3/4) [1, 2, 3, 100] = 109/4 := by
    rw [quantile, hs]
    norm_num [Rat.floor]
    simp only [show Int.toNat 2 = 2 from rfl]
    norm_num [List.getD]
  have hlf : lowerFenceOf [1, 2, 3, 100] = -73/2 := by
    rw [lowerFenceOf, h1, h3]; norm_num
  have huf : upperFenceOf [1, 2, 3, 100] = 131/2 := by
    rw [upperFenceOf, h1, h3]; norm_num
  have hflags : rtOutlierFlags [some 1, some 2, some 3, some 100, none] =
      [false, false, false, true, true] := by
    rw [rtOutlierFlags, if_pos (by decide :
      4 ≤ (([some 1, some 2, some 3, some 100, none] :
        List (Option ℚ)).filterMap id).length)]
    have hv : (([some 1, some 2, some 3, some 100, none] :
        List (Option ℚ)).filterMap id) = [1, 2, 3, 100] := rfl
    rw [hv, hlf, huf]
    norm_num [rtFlagIQR]
  have hmem : ((some (100 : ℚ), true) ∈
      ([some 1, some 2, some 3, some 100, none] : List (Option ℚ)).zip
        (rtOutlierFlags [some 1, some 2, some 3, some 100, none])) := by
    rw [hflags]; decide
  exact (((rt_outlier_flags_follow_iqr_rule
      [some 1, some 2, some 3, some 100, none] (some 100) true
      hmem).2.1 (by decide)) 100 rfl).mp rfl

lemma hasCol_rt_cleanCols {t : Table} (h : hasCol t "rt" = true) :
    hasCol (cleanCols t) "rt" = true := by
  rw [hasCol, List.any_eq_true] at h ⊢
  obtain ⟨c, hc, he⟩ := h
  refine ⟨c, ?_, he⟩
  have hname : c.1 = "rt" := by simpa using he
  simp only [cleanCols, dropUnnamed, dropRemoved, List.mem_filter]
  exact ⟨⟨hc, by rw [hname]; rfl⟩, by rw [hname]; rfl⟩

lemma hasCol_cleanCols_false {t : Table} {n : String}
    (h : hasCol t n = false) : hasCol (cleanCols t) n = false := by
  rw [Bool.eq_false_iff] at h ⊢
  intro hx
  apply h
  rw [hasCol, List.any_eq_true] at hx ⊢
  simp only [cleanCols, dropUnnamed, dropRemoved, List.mem_filter] at hx
  obtain ⟨c, ⟨⟨hc, _⟩, _⟩, he⟩ := hx
  exact ⟨c, hc, he⟩

/-- Claim C1: a `.csv` session file that has a reaction-time column and
whose flagged-outlier percentage exceeds 10 is skipped as a per-item skip:
no cleaned table is written back, no summary row is emitted, and the batch
continues exactly as if the file were absent. -/
theorem aggregator_skips_high_outlier_file
    (name : String) (t : Table) (rest : List (String × Table))
    (hcsv : pyEndsWith name ".csv" = true)
    (hrt : hasCol t "rt" = true)
    (hpct : outlierPct (fileFlags t) > 10) :
    processFile name t = Except.ok none ∧
    processBatch ((name, t) :: rest) = processBatch rest := by
  have hclean : cleanedTable t = none := by
    unfold cleanedTable
    rw [if_pos (hasCol_rt_cleanCols hrt), if_pos hpct]
  have hpf : processFile name t = Except.ok none := by
    unfold processFile; rw [hclean]
  refine ⟨hpf, ?_⟩
  simp only [processBatch, hcsv, if_true, hpf]

/-- Witness for C1: the one-row file `{"rt": [missing]}` has an outlier rate
of 100% and is skipped while the (empty) remaining batch proceeds. -/
theorem aggregator_skips_high_outlier_file_witness :
    processFile "s.csv" ⟨[("rt", [Cell.na])]⟩ = Except.ok none ∧
    processBatch [("s.csv", ⟨[("rt", [Cell.na])]⟩)] = processBatch [] :=
  aggregator_skips_high_outlier_file "s.csv" ⟨[("rt", [Cell.na])]⟩ []
    rfl rfl (by
      have hf : fileFlags ⟨[("rt", [Cell.na])]⟩ = [true] := rfl
      rw [hf]; norm_num [outlierPct])

/-- Claim C10 (amended): a file with no reaction-time column is never
skipped by the outlier threshold, and whenever its processing completes
without raising, the cleaned (column-pruned) table is written back together
with a summary row whose four `avg_rt` metrics are all missing. -/
theorem no_rt_column_never_skipped (n : String) (t : Table)
    (h : hasCol t "rt" = false) :
    cleanedTable t = some (cleanCols t) ∧
    processFile n t ≠ Except.ok none ∧
    (∀ df r, processFile n t = Except.ok (some (df, r)) →
      df = cleanCols t ∧ r.ai_sad_avg_rt = none ∧ r.ai_happy_avg_rt = none ∧
      r.nonai_sad_avg_rt = none ∧ r.nonai_happy_avg_rt = none) := by
  have hcc : hasCol (cleanCols t) "rt" = false := hasCol_cleanCols_false h
  have hclean : cleanedTable t = some (cleanCols t) := by
    unfold cleanedTable
    rw [if_neg (by simp [hcc])]
  have hm : ∀ dbCat emoCat cbb dbL emoL,
      (compute_metrics (cleanCols t) dbCat emoCat cbb dbL emoL).1 = none := by
    intro dbCat emoCat cbb dbL emoL
    unfold compute_metrics
    simp [hcc]
  refine ⟨hclean, ?_, ?_⟩
  · unfold processFile
    simp only [hclean]
    cases hbs : buildSummary n (cleanCols t) with
    | error e => simp [Except.map]
    | ok r => simp [Except.map]
  · intro df r hpf
    unfold processFile at hpf
    simp only [hclean] at hpf
    cases hbs : buildSummary n (cleanCols t) with
    | error e => rw [hbs] at hpf; simp [Except.map] at hpf
    | ok row =>
      rw [hbs] at hpf
      simp only [Except.map, Except.ok.injEq, Option.some.injEq,
        Prod.mk.injEq] at hpf
      obtain ⟨hdf, hrow⟩ := hpf
      refine ⟨hdf.symm, ?_⟩
      unfold buildSummary at hbs
      cases hcs : correctSeries (cleanCols t) with
      | error e => rw [hcs] at hbs; exact absurd hbs (by simp)
      | ok cb =>
        rw [hcs] at hbs
        rcases hcond : condCols (cleanCols t) with ⟨cd, ce⟩
        rw [hcond] at hbs
        cases cd with
        | none =>
          simp only [Except.ok.injEq] at hbs
          rw [← hrow, ← hbs]
          exact ⟨rfl, rfl, rfl, rfl⟩
        | some dc =>
          cases ce with
          | none =>
            simp only [Except.ok.injEq] at hbs
            rw [← hrow, ← hbs]
            exact ⟨rfl, rfl, rfl, rfl⟩
          | some ec =>
            simp only [Except.ok.injEq] at hbs
            rw [← hrow, ← hbs]
            exact ⟨hm (dbCatSeries (cleanCols t) dc)
                     (emoCatSeries (cleanCols t) ec) cb "ai" "sad",
                   hm (dbCatSeries (cleanCols t) dc)
                     (emoCatSeries (cleanCols t) ec) cb "ai" "happy",
                   hm (dbCatSeries (cleanCols t) dc)
                     (emoCatSeries (cleanCols t) ec) cb "non-ai" "sad",
                   hm (dbCatSeries (cleanCols t) dc)
                     (emoCatSeries (cleanCols t) ec) cb "non-ai" "happy"⟩

/-- Witness for C10 at a concrete no-`rt` file. -/
theorem no_rt_column_never_skipped_witness :
    processFile "w.csv" (⟨[]⟩ : Table) ≠ Except.ok none :=
  (no_rt_column_never_skipped "w.csv" ⟨[]⟩ rfl).2.1

/-- Counterexample to C10 as stated: a file with no reaction-time column
but a numeric {0,1} correctness column containing a missing value makes the
correctness coercion raise, so nothing is written and no summary row is
appended for it. -/
theorem no_rt_file_can_still_crash :
    hasCol ⟨[("correct", [Cell.num 1, Cell.na])]⟩ "rt" = false ∧
    processFile "c.csv" ⟨[("correct", [Cell.num 1, Cell.na])]⟩ =
      Except.error () :=
  ⟨rfl, rfl⟩

/-- Counterexample to C2 as stated: the one-row file `{"rt": [missing]}` has
a 100% outlier rate, is skipped at the threshold, and contributes no row at
all to the summary table — the batch output contains no summary rows. -/
theorem skipped_file_has_no_summary_row :
    ¬ ∃ ws rows, processBatch [("s.csv", ⟨[("rt", [Cell.na])]⟩)] =
        Except.ok (ws, rows) ∧ rows ≠ ([] : List SummaryRow) := by
  have h10 : outlierPct (fileFlags ⟨[("rt", [Cell.na])]⟩) > 10 := by
    have hf : fileFlags ⟨[("rt", [Cell.na])]⟩ = [true] := rfl
    rw [hf]; norm_num [outlierPct]
  have hclean : cleanedTable ⟨[("rt", [Cell.na])]⟩ = none := by
    unfold cleanedTable
    rw [if_pos (by rfl), if_pos h10]
  have hpf : processFile "s.csv" ⟨[("rt", [Cell.na])]⟩ = Except.ok none := by
    unfold processFile; rw [hclean]
  have hcsv : pyEndsWith "s.csv" ".csv" = true := rfl
  have h0 : processBatch [("s.csv", ⟨[("rt", [Cell.na])]⟩)] =
      Except.ok ([], []) := by
    simp only [processBatch, hcsv, if_true, hpf]
  rintro ⟨ws, rows, heq, hne⟩
  rw [h0] at heq
  simp only [Except.ok.injEq, Prod.mk.injEq] at heq
  exact hne heq.2.symm

/-- Claim C2 (amended): every `.csv` file the batch fully processes
contributes exactly one summary row, in order (`summaryOf`); a file whose
condition columns cannot be identified is excluded from metric computation
but still contributes a row with every metric missing; files skipped at the
outlier threshold contribute no row. -/
theorem every_fully_processed_file_adds_one_summary_row
    (files : List (String × Table)) (ws : List (String × Table))
    (rows : List SummaryRow) (h : processBatch files = Except.ok (ws, rows)) :
    rows = files.filterMap summaryOf ∧
    (∀ n t df r, processFile n t = Except.ok (some (df, r)) →
      ((condCols df).1 = none ∨ (condCols df).2 = none) → r = nanRow n) := by
  constructor
  · induction files generalizing ws rows with
    | nil =>
      unfold processBatch at h
      simp only [Except.ok.injEq, Prod.mk.injEq] at h
      simp [← h.2]
    | cons p rest ih =>
      by_cases hcsv : pyEndsWith p.1 ".csv" = true
      · cases hpf : processFile p.1 p.2 with
        | error e =>
          simp only [processBatch, hcsv, if_true, hpf] at h
          exact absurd h (by simp)
        | ok o =>
          cases o with
          | none =>
            simp only [processBatch, hcsv, if_true, hpf] at h
            have hsum : summaryOf p = none := by
              simp [summaryOf, hcsv, hpf]
            simp [List.filterMap_cons, hsum, ih _ _ h]
          | some pr =>
            obtain ⟨df, row⟩ := pr
            cases hrest : processBatch rest with
            | error e =>
              simp only [processBatch, hcsv, if_true, hpf, hrest] at h
              exact absurd h (by simp)
            | ok q =>
              obtain ⟨ws2, rows2⟩ := q
              simp only [processBatch, hcsv, if_true, hpf, hrest,
                Except.ok.injEq, Prod.mk.injEq] at h
              obtain ⟨hws, hrows⟩ := h
              have hsum : summaryOf p = some row := by
                simp [summaryOf, hcsv, hpf]
              rw [List.filterMap_cons, hsum, ← hrows, ih _ _ hrest]
      · have hcsv2 : pyEndsWith p.1 ".csv" = false := by
          simpa using hcsv
        simp only [processBatch, hcsv2, Bool.false_eq_true, if_false] at h
        have hsum : summaryOf p = none := by
          simp [summaryOf, hcsv2]
        simp [List.filterMap_cons, hsum, ih _ _ h]
  · intro n t df r hpf hcond
    unfold processFile at hpf
    cases hct : cleanedTable t with
    | none =>
      simp only [hct] at hpf
      exact absurd hpf (by simp)
    | some d =>
      simp only [hct] at hpf
      cases hbs : buildSummary n d with
      | error e =>
        simp only [hbs, Except.map] at hpf
        exact absurd hpf (by simp)
      | ok row =>
        simp only [hbs, Except.map, Except.ok.injEq, Option.some.injEq,
          Prod.mk.injEq] at hpf
        obtain ⟨hdf, hrow⟩ := hpf
        subst hdf
        unfold buildSummary at hbs
        cases hcs : correctSeries d with
        | error e =>
          simp only [hcs] at hbs
          exact absurd hbs (by simp)
        | ok cb =>
          simp only [hcs] at hbs
          rcases hcc : condCols d with ⟨cd, ce⟩
          rw [hcc] at hbs
          cases cd with
          | none =>
            simp only [Except.ok.injEq] at hbs
            rw [← hrow, ← hbs]
          | some dc =>
            cases ce with
            | none =>
              simp only [Except.ok.injEq] at hbs
              rw [← hrow, ← hbs]
            | some ec =>
              rw [hcc] at hcond
              simp at hcond

/-- Witness for C2 (amended) on a one-file batch whose condition columns
cannot be identified: the file still contributes its all-NaN row. -/
theorem every_fully_processed_file_adds_one_summary_row_witness :
    [nanRow "a.csv"] = [("a.csv", (⟨[]⟩ : Table))].filterMap summaryOf :=
  (every_fully_processed_file_adds_one_summary_row
    [("a.csv", ⟨[]⟩)] [("a.csv", ⟨[]⟩)] [nanRow "a.csv"] rfl).1

/-- Claim C8: the Classifier is deterministic — any two listings with the
same directory contents produce identical manifests — and the manifest is
the fixed 4-column header followed by exactly one 4-entry row per image
file whose lower-cased name ends in `.jpg`/`.jpeg`/`.png`, rows sorted by
filename in ascending code-point (= byte) order. -/
theorem classifier_manifest_deterministic_sorted
    (l₁ l₂ : List String) (hp : l₁.Perm l₂) :
    manifest l₁ = manifest l₂ ∧
    manifest l₁ = HEADERS :: manifestRows l₁ ∧
    HEADERS.length = 4 ∧
    (manifestRows l₁).map (fun r => r.headD "") =
      (List.insertionSort (fun a b => strLe a b = true) l₁).filter
        matchesExt ∧
    ((manifestRows l₁).map (fun r => r.headD "")).Perm
      (l₁.filter matchesExt) ∧
    List.Sorted (fun a b => strLe a b = true)
      ((manifestRows l₁).map (fun r => r.headD "")) ∧
    (∀ r ∈ manifestRows l₁, r.length = 4) := by
  have hsort : List.insertionSort (fun a b => strLe a b = true) l₁ =
      List.insertionSort (fun a b => strLe a b = true) l₂ := by
    exact List.eq_of_perm_of_sorted
      (((List.perm_insertionSort _ l₁).trans hp).trans
        (List.perm_insertionSort _ l₂).symm)
      (List.sorted_insertionSort _ l₁)
      (List.sorted_insertionSort _ l₂)
  have hmap : (manifestRows l₁).map (fun r => r.headD "") =
      (List.insertionSort (fun a b => strLe a b = true) l₁).filter
        matchesExt := by
    unfold manifestRows
    rw [List.map_map]
    have hid : ((fun r => r.headD "") ∘ manifestRow) = id :=
      funext fun f => rfl
    rw [hid, List.map_id]
  refine ⟨?_, rfl, rfl, hmap, ?_, ?_, ?_⟩
  · unfold manifest manifestRows
    rw [hsort]
  · rw [hmap]
    exact (List.perm_insertionSort _ l₁).filter matchesExt
  · rw [hmap]
    exact (List.sorted_insertionSort
      (fun a b => strLe a b = true) l₁).filter matchesExt
  · intro r hr
    unfold manifestRows at hr
    obtain ⟨f, -, rfl⟩ := List.mem_map.mp hr
    rfl

/-- Witness for C8: two listings of the same three directory entries yield
the same manifest. -/
theorem classifier_manifest_deterministic_sorted_witness :
    manifest ["b.png", "a.jpg", "c.txt"] =
      manifest ["a.jpg", "c.txt", "b.png"] :=
  (classifier_manifest_deterministic_sorted
    ["b.png", "a.jpg", "c.txt"] ["a.jpg", "c.txt", "b.png"] (by decide)).1

/-- Claim C9: a trial with no response inside the response window is logged
with boolean `correct = False` but a blank (missing) reaction time — the
asymmetry is preserved exactly. -/
theorem timeout_trial_incorrect_with_blank_rt (emo : String) :
    trialOutcome none emo = some ⟨"", none, some false⟩ :=
  rfl

end FaceRec
